import Mathlib

/-!
# Verification of the wercker Docker box lifecycle (`docker/box.go`)

A shallow embedding of the `dockerlocal` package's `DockerBox` orchestrator:
construction (`NewDockerBox`), service sequencing (`RunServices`), container
provisioning (`Run`), image fetching (`Fetch`), teardown (`Stop`, `Clean`),
commit/restart, and the pure bind/port translation helpers
(`portBindings`, `exposedPorts`, `binds`).

Go strings are modelled as `List Char` (`GoString`); the external container
engine client, the shell tokenizer and the directory scan are modelled as an
`Engine` record of behaviour functions, so theorems quantify over every
possible engine behaviour.  Functions whose Go originals can dereference a
nil pointer return a `GoResult` with an explicit `panicked` outcome.
-/

set_option maxHeartbeats 1000000

namespace Wercker

/-- Go strings, modelled as character lists. -/
abbrev GoString := List Char

/-- Embed a Lean string literal as a `GoString`. -/
def gs (s : String) : GoString := s.data

/-- Embeds `strings.ToUpper`. -/
def goUpper (s : GoString) : GoString := s.map Char.toUpper

/-- Embeds `strings.Split(s, c)` for a one-character separator: splits around every
occurrence of `c`; the result is never empty and `goSplit c "" = [""]`. -/
def goSplit (c : Char) : GoString → List GoString
  | [] => [[]]
  | x :: xs =>
    if x = c then [] :: goSplit c xs
    else
      match goSplit c xs with
      | [] => [[x]]
      | y :: ys => (x :: y) :: ys

theorem goSplit_ne_nil (c : Char) (l : GoString) : goSplit c l ≠ [] := by
  induction l with
  | nil => simp [goSplit]
  | cons x xs ih =>
    simp only [goSplit]
    split
    · simp
    · split
      · simp
      · simp

theorem goSplit_of_not_mem {c : Char} {l : GoString} (h : c ∉ l) :
    goSplit c l = [l] := by
  induction l with
  | nil => rfl
  | cons x xs ih =>
    simp only [List.mem_cons, not_or] at h
    simp only [goSplit]
    rw [if_neg (fun he => h.1 he.symm)]
    rw [ih h.2]

theorem goSplit_append {c : Char} {r t : GoString} (h : c ∉ r) :
    goSplit c (r ++ c :: t) = r :: goSplit c t := by
  induction r with
  | nil => simp [goSplit]
  | cons x xs ih =>
    simp only [List.mem_cons, not_or] at h
    simp only [List.cons_append, goSplit]
    rw [if_neg (fun he => h.1 he.symm)]
    simp only [List.append_eq]
    rw [ih h.2]

/-- Errors, as Go `error` values: the distinguished engine type
`*docker.ContainerNotRunning` (recognized by type assertion in `Stop`),
and every other error collapsed to its message. -/
inductive GoError where
  | containerNotRunning (id : GoString) : GoError
  | msg (s : GoString) : GoError
deriving DecidableEq, Repr

/-- Outcome of a Go call that may also crash with a nil-pointer panic. -/
inductive GoResult (α : Type) where
  | ok (a : α) : GoResult α
  | err (e : GoError) : GoResult α
  | panicked : GoResult α
deriving DecidableEq, Repr

def GoResult.isErr {α : Type} : GoResult α → Bool
  | .err _ => true
  | _ => false

def GoResult.isPanic {α : Type} : GoResult α → Bool
  | .panicked => true
  | _ => false

def GoResult.isOk {α : Type} : GoResult α → Bool
  | .ok _ => true
  | _ => false

/-- Embeds `docker.Container` (the fields `box.go` reads). -/
structure Container where
  ID : GoString
  Name : GoString
deriving DecidableEq, Repr

/-- Embeds `docker.Image` (the field `box.go` reads). -/
structure Image where
  ID : GoString
deriving DecidableEq, Repr

/-- Embeds `docker.PortBinding`; `HostIP` keeps Go's zero value `""` when absent. -/
structure PortBinding where
  HostIP : GoString := []
  HostPort : GoString := []
deriving DecidableEq, Repr

/-- Embeds `docker.AuthConfiguration` (fields used). -/
structure AuthConfiguration where
  Username : GoString
  Password : GoString
deriving DecidableEq, Repr

/-- Embeds `CheckAccessOptions` from the docker client wrapper. -/
structure CheckAccessOptions where
  Auth : AuthConfiguration
  Access : GoString
  Repository : GoString
  Registry : GoString
deriving DecidableEq, Repr

/-- Embeds `docker.PullImageOptions` (the data fields; the progress stream is I/O). -/
structure PullImageOptions where
  Repository : GoString
  Tag : GoString
deriving DecidableEq, Repr

/-- Embeds `docker.RemoveContainerOptions`. -/
structure RemoveContainerOptions where
  ID : GoString
  RemoveVolumes : Bool
  Force : Bool
deriving DecidableEq, Repr

/-- Embeds `docker.CommitContainerOptions`. -/
structure CommitContainerOptions where
  Container : GoString
  Repository : GoString
  Tag : GoString
  Message : GoString
  Author : GoString
deriving DecidableEq, Repr

/-- Embeds `docker.Config` (the fields `Run` populates); the exposed-port map is
modelled by its key-set membership function. -/
structure DockerConfig where
  Image : GoString
  Tty : Bool
  OpenStdin : Bool
  Cmd : List GoString
  Env : List GoString
  AttachStdin : Bool
  AttachStdout : Bool
  AttachStderr : Bool
  ExposedPorts : GoString → Bool
  NetworkDisabled : Bool
  DNS : List GoString
  Entrypoint : List GoString

/-- Embeds `docker.CreateContainerOptions`. -/
structure CreateContainerOptions where
  Name : GoString
  Config : DockerConfig

/-- Embeds `docker.HostConfig` (the fields `Run` populates). -/
structure HostConfig where
  Binds : List GoString
  Links : List GoString
  PortBindings : GoString → Option (List PortBinding)
  DNS : List GoString

/-- A directory entry as seen by `ioutil.ReadDir`: name plus the two mode
bits `binds` inspects. -/
structure DirEntry where
  name : GoString
  isDir : Bool
  isSymlink : Bool
deriving DecidableEq, Repr

/-- The environment collaborator: `util.Environment.Interpolate`. -/
structure Env where
  interpolate : GoString → GoString

/-- The external world `box.go` calls into: the container engine client
(`DockerClient`), the shell tokenizer (`shlex.Split`) and the host directory
scan (`ioutil.ReadDir`).  Each operation is an arbitrary behaviour function,
so theorems hold for every engine. -/
structure Engine where
  createContainer : CreateContainerOptions → Except GoError Container
  startContainer : GoString → HostConfig → Option GoError
  stopContainer : GoString → Nat → Option GoError
  restartContainer : GoString → Nat → Option GoError
  removeContainer : RemoveContainerOptions → Option GoError
  removeImage : GoString → Option GoError
  pullImage : PullImageOptions → AuthConfiguration → Option GoError
  inspectImage : GoString → Except GoError Image
  checkAccess : CheckAccessOptions → Except GoError Bool
  commitContainer : CommitContainerOptions → Except GoError Image
  shlexSplit : GoString → Except GoError (List GoString)
  readDir : GoString → Except GoError (List DirEntry)

/-- Embeds `core.BoxConfig` (the fields `box.go` reads). -/
structure BoxConfig where
  ID : GoString
  Tag : GoString
  Cmd : GoString
  Entrypoint : GoString
  Env : List (GoString × GoString)
  Username : GoString
  Password : GoString
  Registry : GoString

/-- Embeds `core.PipelineOptions` (the fields `box.go` reads); `HostPathRoot` is
the zero-argument `HostPath()` and the three path resolvers take an entry
name. -/
structure PipelineOptions where
  PipelineID : GoString
  DirectMount : Bool
  PublishPorts : List GoString
  ShouldCommit : Bool
  HostPathRoot : GoString
  HostPath : GoString → GoString
  GuestPath : GoString → GoString
  MntPath : GoString → GoString

/-- Embeds `DockerOptions` (the fields `box.go` reads). -/
structure DockerOptions where
  DockerLocal : Bool
  DockerDNS : List GoString

/-- Embeds `core.ServiceBox` (the capability interface `box.go` consumes): name,
link alias, container ID and start behaviour. -/
structure ServiceBox where
  getName : GoString
  link : GoString
  getID : GoString
  run : Env → List GoString → Except GoError Container

/-- Embeds `DockerBox`: the orchestrator state. -/
structure DockerBox where
  Name : GoString
  ShortName : GoString
  networkDisabled : Bool
  services : List ServiceBox
  options : PipelineOptions
  dockerOptions : DockerOptions
  container : Option Container
  config : BoxConfig
  cmd : GoString
  repository : GoString
  tag : GoString
  images : List Image
  entrypoint : GoString
  image : Option Image
  volumes : List GoString

/-- Embeds `NewDockerBox`: identifier validation, repository/tag resolution, short
name, command default.  `newClient` stands for the fallible
`NewDockerClient(dockerOptions)` call. -/
def NewDockerBox (newClient : Except GoError Unit) (boxConfig : BoxConfig)
    (options : PipelineOptions) (dockerOptions : DockerOptions) :
    Except GoError DockerBox :=
  let name := boxConfig.ID
  if name.contains '@' then
    .error (.msg (gs "Invalid box name, '@' is not allowed in docker repositories."))
  else
    let parts := goSplit ':' name
    let repository := parts.headD []
    let tag := if parts.length > 1 then parts.getD 1 [] else gs "latest"
    let tag := if boxConfig.Tag ≠ [] then boxConfig.Tag else tag
    let _name := repository ++ gs ":" ++ tag
    let repoParts := goSplit '/' repository
    let shortName := if repoParts.length > 1 then repoParts.getLastD [] else repository
    let cmd := if boxConfig.Cmd = [] then gs "/bin/bash" else boxConfig.Cmd
    let entrypoint := boxConfig.Entrypoint
    match newClient with
    | .error e => .error e
    | .ok _ =>
      .ok { Name := _name
            ShortName := shortName
            networkDisabled := false
            services := []
            options := options
            dockerOptions := dockerOptions
            container := none
            config := boxConfig
            cmd := cmd
            repository := repository
            tag := tag
            images := []
            entrypoint := entrypoint
            image := none
            volumes := [gs "/var/run/docker.sock", gs "/usr/local/bin/docker"] }

/-- Embeds `DockerBox.links`: the link strings of all attached services. -/
def DockerBox.links (b : DockerBox) : List GoString :=
  b.services.map ServiceBox.link

/-- Embeds `DockerBox.GetID`: container ID, or `""` without a container. -/
def DockerBox.GetID (b : DockerBox) : GoString :=
  match b.container with
  | some c => c.ID
  | none => []

/-- Embeds `DockerBox.getContainerName`. -/
def DockerBox.getContainerName (b : DockerBox) : GoString :=
  gs "wercker-pipeline-" ++ b.options.PipelineID

/-! ## RunServices -/

/-- The loop of `DockerBox.RunServices`, instrumented with the trace of
`service.Run` invocations (the service and the link list it was handed).
The loop aborts on the first error; on success the started service's link
is appended before the next iteration. -/
def runServicesT (env : Env) (links : List GoString) :
    List ServiceBox → List (ServiceBox × List GoString) × Option GoError
  | [] => ([], none)
  | s :: rest =>
    match s.run env links with
    | .error e => ([(s, links)], some e)
    | .ok _ =>
      ((s, links) :: (runServicesT env (links ++ [s.link]) rest).1,
       (runServicesT env (links ++ [s.link]) rest).2)

/-- Embeds `DockerBox.RunServices`: the error result of the loop, started from an
empty link list. -/
def DockerBox.RunServices (env : Env) (b : DockerBox) : Option GoError :=
  (runServicesT env [] b.services).2

/-- The `service.Run` calls `RunServices` makes, in order, each paired with
the link list it received. -/
def DockerBox.runServicesCalls (env : Env) (b : DockerBox) :
    List (ServiceBox × List GoString) :=
  (runServicesT env [] b.services).1

/-- The calls `RunServices` would make were every service start to succeed:
each service in declared order, handed exactly the links of the services
before it. -/
def allServiceCalls (links : List GoString) :
    List ServiceBox → List (ServiceBox × List GoString)
  | [] => []
  | s :: rest => (s, links) :: allServiceCalls (links ++ [s.link]) rest

/-! ## Port translation -/

/-- The body of the `portBindings` loop for one publish spec: split on `:`
into 1/2/3 fields, default the protocol to `/tcp`, default an empty host
port to the container port, strip any `/protocol` suffix from the host
port; yields the container-port key and its binding. -/
def portBindingOfSpec (portdef : GoString) : GoString × PortBinding :=
  let parts := goSplit ':' portdef
  let ipHostCont : GoString × GoString × GoString :=
    if parts.length = 3 then (parts.getD 0 [], parts.getD 1 [], parts.getD 2 [])
    else if parts.length = 2 then ([], parts.getD 0 [], parts.getD 1 [])
    else if parts.length = 1 then ([], parts.getD 0 [], parts.getD 0 [])
    else ([], [], [])
  let ip := ipHostCont.1
  let hostPort := ipHostCont.2.1
  let containerPort := ipHostCont.2.2
  let containerPort :=
    if containerPort.contains '/' then containerPort else containerPort ++ gs "/tcp"
  let hostPort := if hostPort = [] then containerPort else hostPort
  let hostPort := (goSplit '/' hostPort).headD []
  (containerPort,
   { HostPort := hostPort, HostIP := if ip ≠ [] then ip else [] })

/-- One iteration of the `portBindings` loop: store the spec's binding as a
singleton list under its container-port key (overwriting any earlier
entry, as Go map assignment does). -/
def portInsert (outer : GoString → Option (List PortBinding))
    (portdef : GoString) : GoString → Option (List PortBinding) :=
  fun k =>
    if k = (portBindingOfSpec portdef).1 then some [(portBindingOfSpec portdef).2]
    else outer k

/-- Embeds `portBindings`: the Go map from container port+protocol to a singleton
binding list, modelled as a lookup function built by successive insertion
(later specs overwrite earlier ones on the same key). -/
def portBindings (published : List GoString) :
    GoString → Option (List PortBinding) :=
  published.foldl portInsert (fun _ => none)

/-- Embeds `exposedPorts`: the key set of `portBindings`. -/
def exposedPorts (published : List GoString) : GoString → Bool :=
  fun port => (portBindings published port).isSome

/-! ## Bind-mount translation -/

/-- Embeds `DockerBox.binds`: scan the host path root; directories and symlinks
become host→guest (direct mount, `:rw`) or host→mnt binds; then the fixed
infrastructure volumes are bound to themselves. -/
def DockerBox.binds (eng : Engine) (b : DockerBox) :
    Except GoError (List GoString) :=
  match eng.readDir b.options.HostPathRoot with
  | .error e => .error e
  | .ok entries =>
    let fromEntries :=
      entries.foldl
        (fun acc entry =>
          if entry.isDir || entry.isSymlink then
            if b.options.DirectMount then
              acc ++ [b.options.HostPath entry.name ++ gs ":" ++
                      b.options.GuestPath entry.name ++ gs ":rw"]
            else
              acc ++ [b.options.HostPath entry.name ++ gs ":" ++
                      b.options.MntPath entry.name]
          else acc)
        []
    .ok (fromEntries ++ b.volumes.map (fun v => v ++ gs ":" ++ v))

/-! ## Run -/

/-- Embeds `dockerEnv`: upper-case each key, interpolate each value, join as
`K=v`. -/
def dockerEnv (boxEnv : List (GoString × GoString)) (env : Env) : List GoString :=
  boxEnv.map (fun kv => goUpper kv.1 ++ gs "=" ++ env.interpolate kv.2)

/-- The `docker.CreateContainerOptions` value `Run` builds. -/
def runCreateOpts (env : Env) (b : DockerBox) (entrypoint cmd : List GoString) :
    CreateContainerOptions :=
  { Name := b.getContainerName
    Config :=
      { Image := env.interpolate b.Name
        Tty := false
        OpenStdin := true
        Cmd := cmd
        Env := dockerEnv b.config.Env env
        AttachStdin := true
        AttachStdout := true
        AttachStderr := true
        ExposedPorts := exposedPorts b.options.PublishPorts
        NetworkDisabled := b.networkDisabled
        DNS := b.dockerOptions.DockerDNS
        Entrypoint := entrypoint } }

/-- The `docker.HostConfig` value `Run` passes to `StartContainer`. -/
def runHostConfig (b : DockerBox) (bindsList : List GoString) : HostConfig :=
  { Binds := bindsList
    Links := b.links
    PortBindings := portBindings b.options.PublishPorts
    DNS := b.dockerOptions.DockerDNS }

/-- The tokenized entrypoint: `shlex.Split` only when non-empty, else the
nil slice. -/
def runEntrypoint (eng : Engine) (b : DockerBox) : Except GoError (List GoString) :=
  if b.entrypoint ≠ [] then eng.shlexSplit b.entrypoint else .ok []

/-- Embeds `DockerBox.Run`: run services, tokenize entrypoint and command, create
the container, compute binds, start the container (the source discards
`StartContainer`'s error), record and return the container handle. -/
def DockerBox.Run (eng : Engine) (env : Env) (b : DockerBox) :
    Except GoError (Container × DockerBox) :=
  match b.RunServices env with
  | some e => .error e
  | none =>
    match runEntrypoint eng b with
    | .error e => .error e
    | .ok entrypoint =>
      match eng.shlexSplit b.cmd with
      | .error e => .error e
      | .ok cmd =>
        match eng.createContainer (runCreateOpts env b entrypoint cmd) with
        | .error e => .error e
        | .ok container =>
          match b.binds eng with
          | .error e => .error e
          | .ok bindsList =>
            -- the source ignores the error returned by StartContainer
            let _ := eng.startContainer container.ID (runHostConfig b bindsList)
            .ok (container, { b with container := some container })

/-! ## Clean -/

/-- One engine call made during `Clean`. -/
inductive CleanCall where
  | removeContainer (opts : RemoveContainerOptions) : CleanCall
  | removeImage (id : GoString) : CleanCall
deriving DecidableEq, Repr

/-- The `RemoveContainerOptions` `Clean` builds for a container ID. -/
def cleanRemoveOpts (id : GoString) : RemoveContainerOptions :=
  { ID := id, RemoveVolumes := true, Force := true }

/-- The container IDs `Clean` collects: the primary (if present), then each
service's non-empty ID in list order. -/
def DockerBox.cleanContainers (b : DockerBox) : List GoString :=
  (match b.container with
   | some c => [c.ID]
   | none => []) ++
  b.services.filterMap (fun s => if s.getID ≠ [] then some s.getID else none)

/-- The container-removal loop of `Clean`, instrumented with its engine
calls: the first removal error aborts the loop and is returned. -/
def removeContainersT (eng : Engine) :
    List GoString → List CleanCall × Option GoError
  | [] => ([], none)
  | c :: rest =>
    match eng.removeContainer (cleanRemoveOpts c) with
    | some e => ([.removeContainer (cleanRemoveOpts c)], some e)
    | none =>
      (.removeContainer (cleanRemoveOpts c) :: (removeContainersT eng rest).1,
       (removeContainersT eng rest).2)

/-- Embeds `DockerBox.Clean`, instrumented with its engine calls: remove the
collected containers (first error aborts); then, only when "should commit"
is false, remove every accumulated image in reverse order, ignoring
image-removal errors. -/
def DockerBox.cleanT (eng : Engine) (b : DockerBox) :
    List CleanCall × Option GoError :=
  match (removeContainersT eng b.cleanContainers).2 with
  | some e => ((removeContainersT eng b.cleanContainers).1, some e)
  | none =>
    if !b.options.ShouldCommit then
      ((removeContainersT eng b.cleanContainers).1 ++
         b.images.reverse.map (fun img => .removeImage img.ID), none)
    else ((removeContainersT eng b.cleanContainers).1, none)

/-- Embeds `DockerBox.Clean`: the returned error of the instrumented run. -/
def DockerBox.Clean (eng : Engine) (b : DockerBox) : Option GoError :=
  (b.cleanT eng).2

/-! ## Stop -/

/-- Observable events of `Stop`: a `StopContainer` call on an ID, then
either nothing (success), the "already stopped" warning, or the generic
warning. -/
inductive StopEvent where
  | called (id : GoString) : StopEvent
  | warnAlreadyStopped : StopEvent
  | warnOther : StopEvent
deriving DecidableEq, Repr

/-- One stop attempt: call `StopContainer(id, 1)`; a
`*docker.ContainerNotRunning` error is downgraded to the "already stopped"
warning, any other error to a generic warning; neither aborts. -/
def stopEventsFor (eng : Engine) (id : GoString) : List StopEvent :=
  match eng.stopContainer id 1 with
  | none => [.called id]
  | some (.containerNotRunning _) => [.called id, .warnAlreadyStopped]
  | some (.msg _) => [.called id, .warnOther]

/-- Embeds `DockerBox.Stop` (it returns nothing): the trace of its stop attempts —
every service in list order, then the primary container if present. -/
def DockerBox.stopT (eng : Engine) (b : DockerBox) : List StopEvent :=
  (b.services.map (fun s => stopEventsFor eng s.getID)).flatten ++
  (match b.container with
   | some c => stopEventsFor eng c.ID
   | none => [])

/-- The IDs `Stop` passes to `StopContainer`, in call order. -/
def stopAttempts (events : List StopEvent) : List GoString :=
  events.filterMap (fun ev =>
    match ev with
    | .called id => some id
    | _ => none)

/-! ## Restart, Commit -/

/-- Embeds `DockerBox.Restart`: `RestartContainer(b.container.ID, 1)`; reading
`b.container.ID` with no container is a nil-pointer dereference, so the
outcome is a panic. -/
def DockerBox.Restart (eng : Engine) (b : DockerBox) : GoResult Container :=
  match b.container with
  | none => .panicked
  | some c =>
    match eng.restartContainer c.ID 1 with
    | some e => .err e
    | none => .ok c

/-- Embeds `DockerBox.Commit`: commit the primary container (reading
`b.container.ID` with no container panics), append the image to the box's
list, return it.  The source hard-codes message "Build completed" and
author "wercker". -/
def DockerBox.Commit (eng : Engine) (b : DockerBox)
    (name tag _message : GoString) : GoResult (Image × DockerBox) :=
  match b.container with
  | none => .panicked
  | some c =>
    match eng.commitContainer
        { Container := c.ID
          Repository := name
          Tag := tag
          Message := gs "Build completed"
          Author := gs "wercker" } with
    | .error e => .err e
    | .ok image => .ok (image, { b with images := b.images ++ [image] })

/-! ## Fetch -/

/-- The `docker.AuthConfiguration` `Fetch` builds. -/
def fetchAuth (env : Env) (b : DockerBox) : AuthConfiguration :=
  { Username := env.interpolate b.config.Username
    Password := env.interpolate b.config.Password }

/-- The `CheckAccessOptions` `Fetch` builds. -/
def fetchCheckOpts (env : Env) (b : DockerBox) : CheckAccessOptions :=
  { Auth := fetchAuth env b
    Access := gs "read"
    Repository := env.interpolate b.repository
    Registry := env.interpolate b.config.Registry }

/-- The `docker.PullImageOptions` `Fetch` builds (the stream fields are
I/O). -/
def fetchPullOpts (env : Env) (b : DockerBox) : PullImageOptions :=
  { Repository := env.interpolate b.repository
    Tag := env.interpolate b.tag }

/-- Embeds `DockerBox.Fetch`; `emitter` stands for the fallible
`core.EmitterFromContext(ctx)` call.  The returned image pointer is an
`Option`: on the local shortcut the inspected image is returned, while the
remote path's success returns `none` (the source's final
`return nil, err`). -/
def DockerBox.Fetch (eng : Engine) (emitter : Except GoError Unit) (env : Env)
    (b : DockerBox) : Except GoError (Option Image × DockerBox) :=
  match emitter with
  | .error e => .error e
  | .ok _ =>
    if b.dockerOptions.DockerLocal then
      match eng.inspectImage (env.interpolate b.Name) with
      | .error e => .error e
      | .ok image => .ok (some image, { b with image := some image })
    else
      match eng.checkAccess (fetchCheckOpts env b) with
      | .error e => .error e
      | .ok check =>
        if !check then
          .error (.msg (gs "Not allowed to interact with this repository: " ++
                        b.repository))
        else
          match eng.pullImage (fetchPullOpts env b) (fetchAuth env b) with
          | some e => .error e
          | none =>
            match eng.inspectImage (env.interpolate b.Name) with
            | .error e => .error e
            | .ok image => .ok (none, { b with image := some image })

/-! ## Spec-side definition for the port-translation refinement -/

/-- Modelled from the spec's port-translation rules (§4.5): pattern-match
the `:`-split fields into the 1/2/3-field shapes, default the protocol
suffix to `/tcp`, default an empty host port to the container port, strip
the `/protocol` suffix by keeping the text before the first `/`, and keep
the host IP only when one was specified. -/
def portBindingClaimed (portdef : GoString) : Option (GoString × PortBinding) :=
  let normalize : GoString → GoString → GoString → GoString × PortBinding :=
    fun ip host cont =>
      let cPort := if cont.contains '/' then cont else cont ++ gs "/tcp"
      let hPort := if host = [] then cPort else host
      let hPort := hPort.takeWhile (fun ch => ch != '/')
      (cPort, { HostIP := if ip ≠ [] then ip else [], HostPort := hPort })
  match goSplit ':' portdef with
  | [p] => some (normalize [] p p)
  | [h, c] => some (normalize [] h c)
  | [ip, h, c] => some (normalize ip h c)
  | _ => none

theorem goSplit_headD_eq_takeWhile (c : Char) (l : GoString) :
    (goSplit c l).head?.getD [] = l.takeWhile (fun ch => ch != c) := by
  induction l with
  | nil => rfl
  | cons x xs ih =>
    by_cases hx : x = c
    · simp [goSplit, hx, List.takeWhile]
    · have hxc : (x != c) = true := by simp [hx]
      cases hsp : goSplit c xs with
      | nil => exact absurd hsp (goSplit_ne_nil c xs)
      | cons y ys =>
        rw [hsp] at ih
        simp only [goSplit, if_neg hx, hsp, List.takeWhile, hxc]
        simp only [List.head?_cons, Option.getD_some] at ih ⊢
        rw [ih]

/-! ## Fixtures: concrete inputs for witnesses and counterexamples -/

/-- A concrete identity environment. -/
def cEnv : Env := { interpolate := fun s => s }

/-- Concrete pipeline options. -/
def cOptions : PipelineOptions :=
  { PipelineID := gs "pid"
    DirectMount := false
    PublishPorts := []
    ShouldCommit := false
    HostPathRoot := gs "/host"
    HostPath := fun n => gs "/host/" ++ n
    GuestPath := fun n => gs "/pipeline/source/" ++ n
    MntPath := fun n => gs "/mnt/" ++ n }

/-- Concrete docker options (remote path). -/
def cDockerOptions : DockerOptions :=
  { DockerLocal := false, DockerDNS := [] }

/-- Concrete box config. -/
def cConfig : BoxConfig :=
  { ID := gs "repo"
    Tag := []
    Cmd := gs "/bin/bash"
    Entrypoint := []
    Env := []
    Username := []
    Password := []
    Registry := [] }

def cContainer : Container := { ID := gs "cid", Name := gs "wercker-pipeline-pid" }

def cImage : Image := { ID := gs "imgid" }

def cErr : GoError := .msg (gs "boom")

def cStartErr : GoError := .msg (gs "start failed")

/-- A concrete box with no services and no container handle. -/
def cBox : DockerBox :=
  { Name := gs "repo:latest"
    ShortName := gs "repo"
    networkDisabled := false
    services := []
    options := cOptions
    dockerOptions := cDockerOptions
    container := none
    config := cConfig
    cmd := gs "/bin/bash"
    repository := gs "repo"
    tag := gs "latest"
    images := []
    entrypoint := []
    image := none
    volumes := [gs "/var/run/docker.sock", gs "/usr/local/bin/docker"] }

/-- An engine where every operation succeeds except `StartContainer`, which
always fails. -/
def cEngineStartFails : Engine :=
  { createContainer := fun _ => .ok cContainer
    startContainer := fun _ _ => some cStartErr
    stopContainer := fun _ _ => none
    restartContainer := fun _ _ => none
    removeContainer := fun _ => none
    removeImage := fun _ => none
    pullImage := fun _ _ => none
    inspectImage := fun _ => .ok cImage
    checkAccess := fun _ => .ok true
    commitContainer := fun _ => .ok cImage
    shlexSplit := fun s => .ok [s]
    readDir := fun _ => .ok [] }

/-- An engine where every operation succeeds. -/
def cEngine : Engine :=
  { cEngineStartFails with startContainer := fun _ _ => none }

/-- An engine whose every stop call fails with a generic error. -/
def cEngineStopFail : Engine :=
  { cEngine with stopContainer := fun _ _ => some cErr }

/-- An engine whose every stop call fails with `ContainerNotRunning`. -/
def cEngineNotRunning : Engine :=
  { cEngine with stopContainer := fun id _ => some (.containerNotRunning id) }

/-! ## C7, C8, C10 -/

/-- C7: box construction resolves an identifier without `:` (and no
override) to tag "latest"; `repo:t` resolves to tag `t`; a non-empty
explicit override always wins; the box name is `repository:tag`. -/
theorem newDockerBox_tag_resolution (nc : Except GoError Unit) (cfg : BoxConfig)
    (opts : PipelineOptions) (dopts : DockerOptions) (b : DockerBox)
    (h : NewDockerBox nc cfg opts dopts = .ok b) :
    (¬ ':' ∈ cfg.ID → cfg.Tag = [] → b.tag = gs "latest") ∧
    (∀ repo t, ¬ ':' ∈ repo → ¬ ':' ∈ t → cfg.ID = repo ++ ':' :: t →
      cfg.Tag = [] → b.tag = t) ∧
    (cfg.Tag ≠ [] → b.tag = cfg.Tag) ∧
    b.Name = b.repository ++ gs ":" ++ b.tag := by
  unfold NewDockerBox at h
  by_cases hat : cfg.ID.contains '@'
  · rw [if_pos hat] at h
    cases h
  · rw [if_neg hat] at h
    cases nc with
    | error e => cases h
    | ok u =>
      simp only [Except.ok.injEq] at h
      subst h
      refine ⟨?_, ?_, ?_, rfl⟩
      · intro hmem htag
        simp [goSplit_of_not_mem hmem, htag]
      · intro repo t hr ht hid htag
        simp [hid, goSplit_append hr, goSplit_of_not_mem ht, htag]
      · intro htag
        simp [htag]

/-- C7 witness: on config id "repo" with override "1.3" the tag is "1.3";
the theorem applied at a concrete successful construction. -/
theorem newDockerBox_tag_resolution_witness :
    ∃ b, NewDockerBox (.ok ()) { cConfig with ID := gs "repo:1.2", Tag := gs "1.3" }
      cOptions cDockerOptions = .ok b ∧ b.tag = gs "1.3" := by
  refine ⟨_, rfl, ?_⟩
  exact (newDockerBox_tag_resolution (.ok ())
    { cConfig with ID := gs "repo:1.2", Tag := gs "1.3" }
    cOptions cDockerOptions _ rfl).2.2.1 (by decide)

/-- C8: an identifier containing `@` yields the invalid-identifier error
and no box is constructed. -/
theorem newDockerBox_rejects_at_sign (nc : Except GoError Unit) (cfg : BoxConfig)
    (opts : PipelineOptions) (dopts : DockerOptions) (h : '@' ∈ cfg.ID) :
    NewDockerBox nc cfg opts dopts =
      .error (.msg (gs "Invalid box name, '@' is not allowed in docker repositories.")) := by
  unfold NewDockerBox
  rw [if_pos (by simpa using h)]

/-- C8 witness: construction on "user@host" fails with the invalid-identifier
error. -/
theorem newDockerBox_rejects_at_sign_witness :
    NewDockerBox (.ok ()) { cConfig with ID := gs "user@host" } cOptions cDockerOptions =
      .error (.msg (gs "Invalid box name, '@' is not allowed in docker repositories.")) :=
  newDockerBox_rejects_at_sign (.ok ()) { cConfig with ID := gs "user@host" }
    cOptions cDockerOptions (by decide)

/-- C10: `GetID` is total: the container's ID when a handle is present, the
empty string when none. -/
theorem getID_total (b : DockerBox) :
    (b.container = none → b.GetID = gs "") ∧
    (∀ c, b.container = some c → b.GetID = c.ID) := by
  constructor
  · intro h
    unfold DockerBox.GetID
    rw [h]
    rfl
  · intro c h
    unfold DockerBox.GetID
    rw [h]

/-- C10 witness: the theorem applied to a box without a container and to one
with a container. -/
theorem getID_total_witness :
    cBox.GetID = gs "" ∧
    DockerBox.GetID { cBox with container := some cContainer } = cContainer.ID :=
  ⟨(getID_total cBox).1 rfl,
   (getID_total { cBox with container := some cContainer }).2 cContainer rfl⟩

/-! ## C9 -/

/-- Anything the `portBindings` fold stores came from some spec in the list
and is that spec's singleton binding. -/
theorem portBindings_foldl_mem :
    ∀ (published : List GoString) (m : GoString → Option (List PortBinding))
      (port : GoString) (bs : List PortBinding),
      (published.foldl portInsert m) port = some bs →
      m port = some bs ∨
        ∃ spec ∈ published, (portBindingOfSpec spec).1 = port ∧
          bs = [(portBindingOfSpec spec).2] := by
  intro published
  induction published with
  | nil => intro m port bs h; exact .inl h
  | cons spec rest ih =>
    intro m port bs h
    rcases ih (portInsert m spec) port bs h with h' | h'
    · unfold portInsert at h'
      by_cases hp : port = (portBindingOfSpec spec).1
      · rw [if_pos hp] at h'
        right
        exact ⟨spec, List.mem_cons_self spec rest, hp.symm,
               (Option.some.inj h').symm⟩
      · rw [if_neg hp] at h'
        exact .inl h'
    · obtain ⟨s, hs, h1, h2⟩ := h'
      exact .inr ⟨s, List.mem_cons_of_mem spec hs, h1, h2⟩

/-- C9: each publish spec is split on `:` into 1/2/3 fields handled as the
spec states (the source computation agrees with the spec-side
`portBindingClaimed` on every such spec), and the resulting map sends each
container port to a singleton binding coming from one of the specs. -/
theorem portBindings_refines_claim :
    (∀ p, 1 ≤ (goSplit ':' p).length → (goSplit ':' p).length ≤ 3 →
      some (portBindingOfSpec p) = portBindingClaimed p) ∧
    (∀ published port bs, portBindings published port = some bs →
      ∃ spec ∈ published, (portBindingOfSpec spec).1 = port ∧
        bs = [(portBindingOfSpec spec).2]) := by
  constructor
  · intro p _ h3
    match hsp : goSplit ':' p with
    | [] => exact absurd hsp (goSplit_ne_nil ':' p)
    | [a] =>
      simp [portBindingOfSpec, portBindingClaimed, hsp,
            goSplit_headD_eq_takeWhile]
    | [a, b] =>
      simp [portBindingOfSpec, portBindingClaimed, hsp,
            goSplit_headD_eq_takeWhile]
    | [a, b, c] =>
      simp [portBindingOfSpec, portBindingClaimed, hsp,
            goSplit_headD_eq_takeWhile]
    | a :: b :: c :: d :: l =>
      rw [hsp] at h3
      simp at h3
  · intro published port bs h
    rcases portBindings_foldl_mem published (fun _ => none) port bs h with h' | h'
    · cases h'
    · exact h'

/-- C9 witness: the theorem applied to the spec's three worked examples. -/
theorem portBindings_refines_claim_witness :
    some (portBindingOfSpec (gs "10.0.0.1:8080:80")) =
      portBindingClaimed (gs "10.0.0.1:8080:80") ∧
    some (portBindingOfSpec (gs "8080:80")) = portBindingClaimed (gs "8080:80") ∧
    ∃ spec ∈ [gs "80"], (portBindingOfSpec spec).1 = gs "80/tcp" ∧
      ([{ HostIP := [], HostPort := gs "80" }] : List PortBinding) =
        [(portBindingOfSpec spec).2] :=
  ⟨portBindings_refines_claim.1 (gs "10.0.0.1:8080:80") (by decide) (by decide),
   portBindings_refines_claim.1 (gs "8080:80") (by decide) (by decide),
   portBindings_refines_claim.2 [gs "80"] (gs "80/tcp")
     [{ HostIP := [], HostPort := gs "80" }] (by decide)⟩

/-! ## C5 -/

/-- A service that always starts. -/
def cS1 : ServiceBox :=
  { getName := gs "s1", link := gs "l1", getID := gs "i1"
    run := fun _ _ => .ok cContainer }

/-- A service that always fails to start. -/
def cS2 : ServiceBox :=
  { getName := gs "s2", link := gs "l2", getID := gs "i2"
    run := fun _ _ => .error cErr }

/-- Another service that always starts. -/
def cS3 : ServiceBox :=
  { getName := gs "s3", link := gs "l3", getID := gs "i3"
    run := fun _ _ => .ok cContainer }

/-- A box with three services of which the second fails. -/
def cBoxSvc : DockerBox := { cBox with services := [cS1, cS2, cS3] }

/-- The trace of `runServicesT` is always a prefix of the full schedule
`allServiceCalls`, and equals it when every start succeeds. -/
theorem runServicesT_schedule (env : Env) :
    ∀ (services : List ServiceBox) (links : List GoString),
      (runServicesT env links services).1 <+: allServiceCalls links services ∧
      ((runServicesT env links services).2 = none →
        (runServicesT env links services).1 = allServiceCalls links services) := by
  intro services
  induction services with
  | nil => intro links; exact ⟨List.nil_prefix, fun _ => rfl⟩
  | cons s rest ih =>
    intro links
    simp only [runServicesT, allServiceCalls]
    cases hrun : s.run env links with
    | error e =>
      constructor
      · exact ⟨allServiceCalls (links ++ [s.link]) rest, rfl⟩
      · intro h
        simp at h
    | ok c =>
      obtain ⟨hpre, heq⟩ := ih (links ++ [s.link])
      constructor
      · exact List.cons_prefix_cons.mpr ⟨rfl, hpre⟩
      · intro h
        rw [heq h]

/-- C5: `RunServices` starts services sequentially in declared order,
passing each exactly the links of the services started before it, and
returns the first start error without starting any later service; with
three services where the second fails, the third is never started and the
second received exactly the first's link. -/
theorem runServices_sequential_links (env : Env) (b : DockerBox) :
    (b.runServicesCalls env <+: allServiceCalls [] b.services) ∧
    (b.RunServices env = none →
      b.runServicesCalls env = allServiceCalls [] b.services) ∧
    (∀ (s1 s2 s3 : ServiceBox) (e : GoError) (c : Container),
      b.services = [s1, s2, s3] →
      s1.run env [] = .ok c →
      s2.run env [s1.link] = .error e →
      b.RunServices env = some e ∧
      b.runServicesCalls env = [(s1, []), (s2, [s1.link])]) := by
  refine ⟨(runServicesT_schedule env b.services []).1,
          (runServicesT_schedule env b.services []).2, ?_⟩
  intro s1 s2 s3 e c hserv h1 h2
  unfold DockerBox.RunServices DockerBox.runServicesCalls
  rw [hserv]
  simp [runServicesT, h1, h2]

/-- C5 witness: the theorem applied to three concrete services whose second
fails: the error is returned, the third is never started, and the second
received exactly the first's link. -/
theorem runServices_sequential_links_witness :
    cBoxSvc.RunServices cEnv = some cErr ∧
    cBoxSvc.runServicesCalls cEnv = [(cS1, []), (cS2, [cS1.link])] :=
  (runServices_sequential_links cEnv cBoxSvc).2.2 cS1 cS2 cS3 cErr cContainer
    rfl rfl rfl

/-! ## C4 -/

/-- The stop schedule the claim predicts: every service ID in list order,
then the primary container's ID when one exists. -/
def stopSchedule (b : DockerBox) : List GoString :=
  b.services.map ServiceBox.getID ++
    (match b.container with
     | some c => [c.ID]
     | none => [])

theorem stopAttempts_append (l1 l2 : List StopEvent) :
    stopAttempts (l1 ++ l2) = stopAttempts l1 ++ stopAttempts l2 :=
  List.filterMap_append l1 l2 _

/-- One stop attempt always calls `StopContainer` on exactly its ID,
whatever the engine answers. -/
theorem stopAttempts_stopEventsFor (eng : Engine) (id : GoString) :
    stopAttempts (stopEventsFor eng id) = [id] := by
  unfold stopEventsFor
  rcases eng.stopContainer id 1 with _ | e
  · rfl
  · rcases e with x | s <;> rfl

theorem stopAttempts_flatten (eng : Engine) :
    ∀ ss : List ServiceBox,
      stopAttempts ((ss.map (fun s => stopEventsFor eng s.getID)).flatten) =
        ss.map ServiceBox.getID := by
  intro ss
  induction ss with
  | nil => rfl
  | cons s rest ih =>
    simp only [List.map_cons, List.flatten_cons]
    rw [stopAttempts_append, stopAttempts_stopEventsFor, ih]
    rfl

/-- C4: for every engine behaviour (in particular with every stop call
failing), `Stop` attempts to stop each service in list order and then the
primary container if present, returns no error (its trace is its whole
observable result), never skips a later stop, and downgrades a
`ContainerNotRunning` failure to the already-stopped warning. -/
theorem stop_attempts_all_never_errors (eng : Engine) (b : DockerBox) :
    stopAttempts (b.stopT eng) = stopSchedule b ∧
    (∀ id x, eng.stopContainer id 1 = some (.containerNotRunning x) →
      stopEventsFor eng id = [.called id, .warnAlreadyStopped]) := by
  constructor
  · unfold DockerBox.stopT stopSchedule
    rw [stopAttempts_append, stopAttempts_flatten]
    rcases b.container with _ | c
    · rfl
    · rw [stopAttempts_stopEventsFor]
  · intro id x h
    unfold stopEventsFor
    rw [h]

/-- A box with two services and a primary container, for stop/clean
witnesses. -/
def cBoxStop : DockerBox :=
  { cBox with services := [cS1, cS2], container := some cContainer }

/-- C4 witness: with an engine whose every stop call fails, both services
and the primary container are still attempted in order; with an engine
reporting not-running, the warning downgrade fires. -/
theorem stop_attempts_all_never_errors_witness :
    stopAttempts (cBoxStop.stopT cEngineStopFail) =
      [gs "i1", gs "i2", gs "cid"] ∧
    stopEventsFor cEngineNotRunning (gs "z") =
      [.called (gs "z"), .warnAlreadyStopped] :=
  ⟨(stop_attempts_all_never_errors cEngineStopFail cBoxStop).1.trans (by rfl),
   (stop_attempts_all_never_errors cEngineNotRunning cBoxStop).2 (gs "z")
     (gs "z") rfl⟩

/-! ## C3 -/

/-- When the container-removal loop succeeds it removed every collected
container, in list order. -/
theorem removeContainersT_ok (eng : Engine) :
    ∀ cs : List GoString, (removeContainersT eng cs).2 = none →
      (removeContainersT eng cs).1 =
        cs.map (fun id => CleanCall.removeContainer (cleanRemoveOpts id)) := by
  intro cs
  induction cs with
  | nil => intro _; rfl
  | cons c rest ih =>
    intro h
    simp only [removeContainersT] at h ⊢
    revert h
    cases hrc : eng.removeContainer (cleanRemoveOpts c) with
    | some e =>
      intro h
      simp at h
    | none =>
      intro h
      show CleanCall.removeContainer (cleanRemoveOpts c) ::
        (removeContainersT eng rest).1 = _
      simp only [List.map_cons]
      exact congrArg _ (ih h)

/-- When the container-removal loop fails, the failure happened at some
index `k`: the first `k` removals succeeded, the `k`-th failed with the
returned error, and only the first `k+1` containers were issued removal
calls (the remaining ones are left unremoved). -/
theorem removeContainersT_err (eng : Engine) :
    ∀ (cs : List GoString) (e : GoError),
      (removeContainersT eng cs).2 = some e →
      ∃ k, k < cs.length ∧
        eng.removeContainer (cleanRemoveOpts (cs.getD k [])) = some e ∧
        (∀ j, j < k → eng.removeContainer (cleanRemoveOpts (cs.getD j [])) = none) ∧
        (removeContainersT eng cs).1 =
          (cs.take (k + 1)).map
            (fun id => CleanCall.removeContainer (cleanRemoveOpts id)) := by
  intro cs
  induction cs with
  | nil =>
    intro e h
    simp [removeContainersT] at h
  | cons c rest ih =>
    intro e h
    simp only [removeContainersT] at h ⊢
    revert h
    cases hrc : eng.removeContainer (cleanRemoveOpts c) with
    | some e' =>
      intro h
      have h' : e' = e := Option.some.inj h
      subst h'
      refine ⟨0, Nat.succ_pos _, by simpa using hrc,
        fun j hj => absurd hj (Nat.not_lt_zero j), by rfl⟩
    | none =>
      intro h
      obtain ⟨k, hk, he, hj, htr⟩ := ih e h
      refine ⟨k + 1, Nat.succ_lt_succ hk, by simpa using he, ?_, ?_⟩
      · intro j hjlt
        cases j with
        | zero => simpa using hrc
        | succ j' =>
          rw [List.getD_cons_succ]
          exact hj j' (by omega)
      · show CleanCall.removeContainer (cleanRemoveOpts c) ::
          (removeContainersT eng rest).1 = _
        rw [List.take_succ_cons, List.map_cons]
        exact congrArg _ htr

/-- C3: `Clean` removes the collected containers (primary first, then each
service in list order), returning the first removal error immediately with
the remaining containers unremoved; exactly when "should commit" is false
it afterwards removes every accumulated image in reverse commit order, and
image-removal errors never affect the result. -/
theorem clean_first_error_aborts_reverse_images (eng : Engine) (b : DockerBox) :
    (∀ e, (removeContainersT eng b.cleanContainers).2 = some e →
      b.Clean eng = some e ∧
      (b.cleanT eng).1 = (removeContainersT eng b.cleanContainers).1 ∧
      ∃ k, k < b.cleanContainers.length ∧
        eng.removeContainer (cleanRemoveOpts (b.cleanContainers.getD k [])) = some e ∧
        (∀ j, j < k →
          eng.removeContainer (cleanRemoveOpts (b.cleanContainers.getD j [])) = none) ∧
        (removeContainersT eng b.cleanContainers).1 =
          (b.cleanContainers.take (k + 1)).map
            (fun id => CleanCall.removeContainer (cleanRemoveOpts id))) ∧
    ((removeContainersT eng b.cleanContainers).2 = none →
      b.Clean eng = none ∧
      (b.cleanT eng).1 =
        (removeContainersT eng b.cleanContainers).1 ++
          (if b.options.ShouldCommit = false then
            b.images.reverse.map (fun img => CleanCall.removeImage img.ID)
          else [])) := by
  constructor
  · intro e h
    unfold DockerBox.Clean DockerBox.cleanT
    rw [h]
    exact ⟨rfl, rfl, removeContainersT_err eng b.cleanContainers e h⟩
  · intro h
    unfold DockerBox.Clean DockerBox.cleanT
    rw [h]
    cases hsc : b.options.ShouldCommit with
    | false => simp
    | true => simp

/-- A second image, to exhibit the reverse removal order. -/
def cImage2 : Image := { ID := gs "imgid2" }

/-- An engine whose container removals always fail. -/
def cEngineRemoveFail : Engine :=
  { cEngine with removeContainer := fun _ => some cErr }

/-- A box with a primary container, one service and two committed images. -/
def cBoxClean : DockerBox :=
  { cBox with
    services := [cS1]
    container := some cContainer
    images := [cImage, cImage2] }

/-- C3 witness: the theorem applied to a failing-removal engine (the error
is returned) and to an all-success engine (no error; both images removed in
reverse commit order after the container removals). -/
theorem clean_first_error_aborts_reverse_images_witness :
    cBoxClean.Clean cEngineRemoveFail = some cErr ∧
    cBoxClean.Clean cEngine = none ∧
    (cBoxClean.cleanT cEngine).1 =
      [CleanCall.removeContainer (cleanRemoveOpts (gs "cid")),
       CleanCall.removeContainer (cleanRemoveOpts (gs "i1")),
       CleanCall.removeImage (gs "imgid2"),
       CleanCall.removeImage (gs "imgid")] :=
  ⟨((clean_first_error_aborts_reverse_images cEngineRemoveFail cBoxClean).1
      cErr rfl).1,
   ((clean_first_error_aborts_reverse_images cEngine cBoxClean).2 rfl).1,
   (((clean_first_error_aborts_reverse_images cEngine cBoxClean).2 rfl).2).trans
     (by rfl)⟩

/-! ## C2 -/

/-- C2: on the remote path, when the access check, the pull and the final
inspection all succeed, `Fetch` caches the inspected image on the box but
returns no image handle together with no error; on the local-development
shortcut it returns the inspected handle (and caches it) with no access
check. -/
theorem fetch_remote_nil_handle (eng : Engine) (env : Env) (b : DockerBox) :
    (∀ image, b.dockerOptions.DockerLocal = false →
      eng.checkAccess (fetchCheckOpts env b) = .ok true →
      eng.pullImage (fetchPullOpts env b) (fetchAuth env b) = none →
      eng.inspectImage (env.interpolate b.Name) = .ok image →
      b.Fetch eng (.ok ()) env = .ok (none, { b with image := some image })) ∧
    (∀ image, b.dockerOptions.DockerLocal = true →
      eng.inspectImage (env.interpolate b.Name) = .ok image →
      b.Fetch eng (.ok ()) env = .ok (some image, { b with image := some image })) := by
  constructor
  · intro image hlocal hcheck hpull hinspect
    unfold DockerBox.Fetch
    rw [hlocal, hcheck, hpull, hinspect]
    rfl
  · intro image hlocal hinspect
    unfold DockerBox.Fetch
    rw [hlocal, hinspect]
    rfl

/-- A box on the local-development shortcut. -/
def cBoxLocal : DockerBox :=
  { cBox with dockerOptions := { cDockerOptions with DockerLocal := true } }

/-- C2 witness: with an all-success engine, the remote path returns no
handle while caching the image, and the local shortcut returns the
handle. -/
theorem fetch_remote_nil_handle_witness :
    cBox.Fetch cEngine (.ok ()) cEnv =
      .ok (none, { cBox with image := some cImage }) ∧
    cBoxLocal.Fetch cEngine (.ok ()) cEnv =
      .ok (some cImage, { cBoxLocal with image := some cImage }) :=
  ⟨(fetch_remote_nil_handle cEngine cEnv cBox).1 cImage rfl rfl rfl rfl,
   (fetch_remote_nil_handle cEngine cEnv cBoxLocal).2 cImage rfl rfl⟩

/-! ## C6 -/

/-- C6 (amended): with no primary container handle, `Commit` and `Restart`
do not succeed and do not return an error: the source dereferences the nil
container pointer, so both crash. -/
theorem commit_restart_panicked_without_container (eng : Engine) (b : DockerBox)
    (h : b.container = none) (name tag message : GoString) :
    b.Commit eng name tag message = .panicked ∧ b.Restart eng = .panicked := by
  constructor
  · unfold DockerBox.Commit
    rw [h]
  · unfold DockerBox.Restart
    rw [h]

/-- C6 witness: the amended theorem applied to a concrete box without a
container. -/
theorem commit_restart_panicked_without_container_witness :
    cBox.Commit cEngine (gs "n") (gs "t") (gs "m") = .panicked ∧
    cBox.Restart cEngine = .panicked :=
  commit_restart_panicked_without_container cEngine cBox rfl
    (gs "n") (gs "t") (gs "m")

/-- C6 counterexample: on a box whose primary container handle is absent,
`Commit` and `Restart` do not return an error — the outcome is a crash
(nil-pointer panic), contradicting the claim that they return an error
rather than crashing. -/
theorem commit_restart_no_error_without_container :
    (cBox.Commit cEngine (gs "n") (gs "t") (gs "m")).isErr = false ∧
    (cBox.Commit cEngine (gs "n") (gs "t") (gs "m")).isPanic = true ∧
    (cBox.Restart cEngine).isErr = false ∧
    (cBox.Restart cEngine).isPanic = true :=
  ⟨rfl, rfl, rfl, rfl⟩

/-! ## C1 -/

/-- C1 (amended): `Run` propagates service-start, tokenization,
container-creation and bind-computation errors unmodified; but when
creation succeeds, `Run` returns the container handle with no error for
every engine behaviour — a `StartContainer` failure is discarded, not
returned. -/
theorem run_error_propagation_except_start (eng : Engine) (env : Env)
    (b : DockerBox) :
    (∀ e, b.RunServices env = some e → b.Run eng env = .error e) ∧
    (∀ e, b.RunServices env = none → runEntrypoint eng b = .error e →
      b.Run eng env = .error e) ∧
    (∀ e ep, b.RunServices env = none → runEntrypoint eng b = .ok ep →
      eng.shlexSplit b.cmd = .error e → b.Run eng env = .error e) ∧
    (∀ e ep cmd, b.RunServices env = none → runEntrypoint eng b = .ok ep →
      eng.shlexSplit b.cmd = .ok cmd →
      eng.createContainer (runCreateOpts env b ep cmd) = .error e →
      b.Run eng env = .error e) ∧
    (∀ e ep cmd c, b.RunServices env = none → runEntrypoint eng b = .ok ep →
      eng.shlexSplit b.cmd = .ok cmd →
      eng.createContainer (runCreateOpts env b ep cmd) = .ok c →
      b.binds eng = .error e → b.Run eng env = .error e) ∧
    (∀ ep cmd c bl, b.RunServices env = none → runEntrypoint eng b = .ok ep →
      eng.shlexSplit b.cmd = .ok cmd →
      eng.createContainer (runCreateOpts env b ep cmd) = .ok c →
      b.binds eng = .ok bl →
      b.Run eng env = .ok (c, { b with container := some c })) := by
  refine ⟨?_, ?_, ?_, ?_, ?_, ?_⟩
  · intro e h1
    unfold DockerBox.Run
    rw [h1]
  · intro e h1 h2
    unfold DockerBox.Run
    rw [h1, h2]
  · intro e ep h1 h2 h3
    unfold DockerBox.Run
    rw [h1, h2, h3]
  · intro e ep cmd h1 h2 h3 h4
    unfold DockerBox.Run
    simp only [h1, h2, h3, h4]
  · intro e ep cmd c h1 h2 h3 h4 h5
    unfold DockerBox.Run
    simp only [h1, h2, h3, h4, h5]
  · intro ep cmd c bl h1 h2 h3 h4 h5
    unfold DockerBox.Run
    simp only [h1, h2, h3, h4, h5]

/-- An engine whose container creation always fails. -/
def cEngineCreateFail : Engine :=
  { cEngine with createContainer := fun _ => .error cErr }

/-- C1 witness: a creation error is propagated; with creation succeeding
and `StartContainer` always failing, `Run` still returns the handle with
no error. -/
theorem run_error_propagation_except_start_witness :
    cBox.Run cEngineCreateFail cEnv = .error cErr ∧
    cBox.Run cEngineStartFails cEnv =
      .ok (cContainer, { cBox with container := some cContainer }) :=
  ⟨(run_error_propagation_except_start cEngineCreateFail cEnv cBox).2.2.2.1
     cErr [] [gs "/bin/bash"] rfl rfl rfl rfl,
   (run_error_propagation_except_start cEngineStartFails cEnv cBox).2.2.2.2.2
     [] [gs "/bin/bash"] cContainer
     (cBox.volumes.map (fun v => v ++ gs ":" ++ v)) rfl rfl rfl rfl rfl⟩

/-- C1 counterexample: an engine whose `StartContainer` always fails (so
the start call after the successful creation fails), yet `Run` returns the
container handle with no error instead of the start error. -/
theorem run_returns_handle_despite_start_failure :
    cEngineStartFails.startContainer cContainer.ID
        (runHostConfig cBox (cBox.volumes.map (fun v => v ++ gs ":" ++ v))) =
      some cStartErr ∧
    cBox.Run cEngineStartFails cEnv =
      .ok (cContainer, { cBox with container := some cContainer }) :=
  ⟨rfl, rfl⟩

end Wercker
